import Mathlib

/-!
Verification of the medcode repository: HL7-style message ingestion,
encounter correlation, readiness state machine, codable-packet
generation, and the coding front end.

The front-end components (`ManageDataPanel`, `DiagnosisEntry`,
`ProcedureEntry`) and the `determine_charge_type` rule are embedded
directly from the repository's sources.  The back-end pipeline
(idempotency ledger, correlator, readiness machine, packet generator)
is not present in the repository's source tree — only its design
documents and its front-end callers are — so those parts are modelled
from the specification, as flagged in each doc comment.
-/

namespace Medcode

/-! ## ManageDataPanel (src/frontend/src/components/ManageDataPanel.tsx) -/

/-- From `ManageDataPanel.tsx`: `userRoles.some((role) =>
    ['coder', 'admin'].includes(role.toLowerCase()))`. -/
def hasAccess (userRoles : List String) : Bool :=
  userRoles.any (fun role => (["coder", "admin"] : List String).contains role.toLower)

/-- What the `ManageDataPanel` component renders: either the upload
    interface or nothing (the component returns `null`). -/
inductive PanelRender where
  | uploadInterface
  | nothing
  deriving DecidableEq, Repr

/-- From `ManageDataPanel.tsx`: the component returns `null` when
    `hasAccess` is false, otherwise renders the upload interface. -/
def manageDataPanel (userRoles : List String) : PanelRender :=
  if hasAccess userRoles then .uploadInterface else .nothing

/-! ## Charge classification (determine_charge_type, src/unnamed/part_010) -/

/-- From part_010 `class ChargeType(str, Enum)`. -/
inductive ChargeType where
  | facility
  | profee
  | both
  deriving DecidableEq, Repr

/-- From part_010 `class EmploymentType(str, Enum)`. -/
inductive EmploymentType where
  | hospitalEmployed
  | independentContractor
  | hospitalPrivilegesOnly
  | locumTenens
  deriving DecidableEq, Repr

/-- The fields of part_010's `Charge` model that `determine_charge_type`
    reads: revenue code, procedure modifier, performing provider NPI. -/
structure Charge where
  revenue_code : Option String
  procedure_modifier : Option String
  performing_provider_npi : Option String
  deriving DecidableEq, Repr

/-- From part_010 `determine_charge_type`.  The database lookup
    `db.query(NPIProvider).filter_by(npi=...)` is abstracted as the
    registry function `reg : String → Option EmploymentType`. -/
def determine_charge_type (reg : String → Option EmploymentType) (charge : Charge) :
    ChargeType :=
  if charge.revenue_code.isSome then .facility
  else if charge.procedure_modifier = some "26" then .profee
  else if charge.procedure_modifier = some "TC" then .facility
  else
    match charge.performing_provider_npi with
    | some npi =>
        match reg npi with
        | some e => if e = .hospitalEmployed then .both else .facility
        | none => .facility
    | none => .facility

/-- The classification rule exactly as the claim words it: facility
    revenue code present ⇒ facility; else professional-component
    modifier ⇒ professional; else technical-component modifier ⇒
    facility; else an employed performing-provider reference with no
    disambiguating modifier ⇒ both; all remaining cases ⇒ facility. -/
def chargeTypeSpec (isEmployed : String → Bool) (charge : Charge) : ChargeType :=
  if charge.revenue_code.isSome then .facility
  else if charge.procedure_modifier = some "26" then .profee
  else if charge.procedure_modifier = some "TC" then .facility
  else if (charge.performing_provider_npi.map isEmployed).getD false then .both
  else .facility

/-! ## DiagnosisEntry (src/frontend/src/components/ManageDataPanel.tsx)
    and ProcedureEntry
    (src/frontend/src/components/coding/CodingPanel/ProcedureEntry.tsx)

    Both components keep a list of codes with a principal/secondary
    distinction and identical list-manipulation logic; they differ only
    in the per-code payload fields.  -/

/-- From `DiagnosisEntry`'s `DiagnosisCode` interface. -/
structure DiagnosisCode where
  id : String
  code : String
  description : String
  isPrincipal : Bool
  poaIndicator : Option String
  sequence : Nat
  deriving DecidableEq, Repr

/-- From `ProcedureEntry`'s `ProcedureCode` interface. -/
structure ProcedureCode where
  id : String
  code : String
  description : String
  codeType : String
  isPrincipal : Bool
  sequence : Nat
  procedureDate : Option String
  deriving DecidableEq, Repr

/-- From `DiagnosisEntry.handleAddCode`: the new code gets sequence 1
    when principal (otherwise `codes.length + 1`); when adding a
    principal, every existing principal is demoted with sequence
    `codes.length + 1` and the new code is prepended.  `newId` stands
    for `crypto.randomUUID()`. -/
def dxAddCode (codes : List DiagnosisCode) (newId code description : String)
    (isPrincipal : Bool) : List DiagnosisCode :=
  let newCode : DiagnosisCode :=
    ⟨newId, code, description, isPrincipal, some "Y",
      if isPrincipal then 1 else codes.length + 1⟩
  if isPrincipal then
    newCode :: codes.map (fun c =>
      if c.isPrincipal then
        { c with isPrincipal := false, sequence := codes.length + 1 }
      else c)
  else
    codes ++ [newCode]

/-- The resequencing map `updated.map((c, i) => ({...c, sequence:
    c.isPrincipal ? 1 : i + 1}))` shared by `handleRemoveCode` and
    `handleMakePrincipal`, written as index-passing recursion. -/
def dxResequenceFrom (i : Nat) : List DiagnosisCode → List DiagnosisCode
  | [] => []
  | c :: cs =>
      { c with sequence := if c.isPrincipal then 1 else i + 1 } ::
        dxResequenceFrom (i + 1) cs

/-- From `DiagnosisEntry.handleRemoveCode`: filter the id out, then
    resequence. -/
def dxRemoveCode (codes : List DiagnosisCode) (id : String) : List DiagnosisCode :=
  dxResequenceFrom 0 (codes.filter (fun c => c.id ≠ id))

/-- From `DiagnosisEntry.handleMakePrincipal`: set `isPrincipal` to
    `c.id === id`, give the target sequence 1, then resequence the
    non-principal codes. -/
def dxMakePrincipal (codes : List DiagnosisCode) (id : String) : List DiagnosisCode :=
  dxResequenceFrom 0 (codes.map (fun c =>
    { c with isPrincipal := c.id = id,
             sequence := if c.id = id then 1 else c.sequence }))

/-- From `ProcedureEntry.handleAddCode` (same logic as the diagnosis
    variant; `procedureDate` starts `null`). -/
def pxAddCode (codes : List ProcedureCode) (newId code description codeType : String)
    (isPrincipal : Bool) : List ProcedureCode :=
  let newCode : ProcedureCode :=
    ⟨newId, code, description, codeType, isPrincipal,
      if isPrincipal then 1 else codes.length + 1, none⟩
  if isPrincipal then
    newCode :: codes.map (fun c =>
      if c.isPrincipal then
        { c with isPrincipal := false, sequence := codes.length + 1 }
      else c)
  else
    codes ++ [newCode]

/-- Index-passing resequencing for procedure codes. -/
def pxResequenceFrom (i : Nat) : List ProcedureCode → List ProcedureCode
  | [] => []
  | c :: cs =>
      { c with sequence := if c.isPrincipal then 1 else i + 1 } ::
        pxResequenceFrom (i + 1) cs

/-- From `ProcedureEntry.handleRemoveCode`. -/
def pxRemoveCode (codes : List ProcedureCode) (id : String) : List ProcedureCode :=
  pxResequenceFrom 0 (codes.filter (fun c => c.id ≠ id))

/-- From `ProcedureEntry.handleMakePrincipal`. -/
def pxMakePrincipal (codes : List ProcedureCode) (id : String) : List ProcedureCode :=
  pxResequenceFrom 0 (codes.map (fun c =>
    { c with isPrincipal := c.id = id,
             sequence := if c.id = id then 1 else c.sequence }))

/-- The invariant of both code lists: at most one principal code, and a
    principal code always has sequence 1. -/
def dxInvariant (codes : List DiagnosisCode) : Prop :=
  codes.countP (fun c => c.isPrincipal) ≤ 1 ∧
    ∀ c ∈ codes, c.isPrincipal = true → c.sequence = 1

/-- The invariant for procedure code lists. -/
def pxInvariant (codes : List ProcedureCode) : Prop :=
  codes.countP (fun c => c.isPrincipal) ≤ 1 ∧
    ∀ c ∈ codes, c.isPrincipal = true → c.sequence = 1

instance (codes : List DiagnosisCode) : Decidable (dxInvariant codes) := by
  unfold dxInvariant; infer_instance

instance (codes : List ProcedureCode) : Decidable (pxInvariant codes) := by
  unfold pxInvariant; infer_instance

/-- A sample diagnosis-code list used to exercise the list operations
    on concrete input. -/
def dxSample : List DiagnosisCode :=
  [⟨"a", "A00", "first", true, some "Y", 1⟩,
   ⟨"b", "B00", "second", false, some "N", 2⟩]

/-- A sample procedure-code list used to exercise the list operations
    on concrete input. -/
def pxSample : List ProcedureCode :=
  [⟨"p", "0016070", "proc one", "ICD-10-PCS", true, 1, none⟩,
   ⟨"q", "0016071", "proc two", "ICD-10-PCS", false, 2, some "2026-01-01"⟩]

/-! ## Back-end ingestion pipeline

    The Python back end (parser, idempotency ledger, correlator,
    readiness state machine, packet generator) is not in the source
    tree; the repository holds only its design documents and its
    front-end callers.  Everything below is therefore modelled from
    the specification, as each doc comment states. -/

/-- Modelled from the spec: the encounter lifecycle states of §4.5.
    `opened` stands for the spec's `open` (a Lean keyword). -/
inductive EncStatus where
  | opened
  | discharged
  | readyToCode
  | coded
  | stale
  | cancelled
  deriving DecidableEq, Repr

/-- Modelled from the spec: whether a status is terminal (`coded` ends
    the forward chain, `cancelled` is the terminal cancel state). -/
def isTerminal (s : EncStatus) : Bool :=
  s == .coded || s == .cancelled

/-- Modelled from the spec: the operations of §4.4/§4.5 that can touch
    an encounter's lifecycle status — message updates, the staleness
    sweep, and explicit operator actions. -/
inductive EncOp where
  | dischargeMsg
  | readinessEntry
  | staleSweep
  | operatorReady
  | cancelMsg
  | completeCoding
  | otherMsg
  deriving DecidableEq, Repr

/-- Modelled from the spec: the readiness state machine's transition
    function (§4.5).  `open → discharged` on a discharge-class
    message; `discharged → ready_to_code` immediately afterwards;
    `open|discharged → stale` on the sweep; `open|discharged|stale →
    ready_to_code` on operator action; any non-terminal state `→
    cancelled` on a cancel-class message; `ready_to_code → coded` when
    coding completes.  Every pair not listed leaves the status
    unchanged. -/
def stepStatus (s : EncStatus) (op : EncOp) : EncStatus :=
  match s, op with
  | .opened, .dischargeMsg => .discharged
  | .discharged, .readinessEntry => .readyToCode
  | .opened, .staleSweep => .stale
  | .discharged, .staleSweep => .stale
  | .opened, .operatorReady => .readyToCode
  | .discharged, .operatorReady => .readyToCode
  | .stale, .operatorReady => .readyToCode
  | .readyToCode, .completeCoding => .coded
  | .opened, .cancelMsg => .cancelled
  | .discharged, .cancelMsg => .cancelled
  | .readyToCode, .cancelMsg => .cancelled
  | .stale, .cancelMsg => .cancelled
  | s, _ => s

/-- Position of a status along the forward chain
    `open → discharged → ready_to_code → coded`. -/
def chainRank : EncStatus → Option Nat
  | .opened => some 0
  | .discharged => some 1
  | .readyToCode => some 2
  | .coded => some 3
  | _ => none

/-- The moves claim C8 allows: staying put; moving forward along the
    chain; entering `stale` from `open` or `discharged`; cancelling
    from any non-terminal state; and the sole exception to forward
    motion, forcing a `stale` encounter to `ready_to_code`. -/
def allowedMove (s t : EncStatus) : Prop :=
  t = s ∨
  ((chainRank s).isSome ∧ (chainRank t).isSome ∧
    (chainRank s).getD 0 < (chainRank t).getD 0) ∨
  ((s = .opened ∨ s = .discharged) ∧ t = .stale) ∨
  (isTerminal s = false ∧ t = .cancelled) ∨
  (s = .stale ∧ t = .readyToCode)

instance (s t : EncStatus) : Decidable (allowedMove s t) := by
  unfold allowedMove; infer_instance

/-- Modelled from the spec: the message classes of §4.4. -/
inductive MsgClass where
  | admission
  | discharge
  | demographicUpdate
  | transfer
  | classChange
  | cancel
  | orderMsg
  | resultMsg
  | documentMsg
  | financialMsg
  deriving DecidableEq, Repr

/-- Modelled from the spec: a parsed inbound message with its control
    identifier (the idempotency key), tenant, and the visit identifier
    that correlates it to an encounter; the clinical content is kept
    abstract except for the fields the routing rules read. -/
structure Msg where
  controlId : String
  tenant : String
  visitId : String
  mclass : MsgClass
  serviceLine : String
  physicianRef : Option String
  payload : String
  disposition : Option String
  deriving DecidableEq, Repr

/-- Modelled from the spec (§3 RawMessage): processing outcomes. -/
inductive Outcome where
  | processed
  | duplicate
  | error
  | ignored
  deriving DecidableEq, Repr

/-- Modelled from the spec (§3 RawMessage): one audit row per received
    message; `controlId` is `none` when the message was structurally
    unparseable and no control identifier could be extracted. -/
structure RawRow where
  controlId : Option String
  tenant : String
  outcome : Outcome
  errorDetail : Option String
  deriving DecidableEq, Repr

/-- Modelled from the spec (§3 Encounter): the correlation root, keyed
    by visit identifier within a tenant. -/
structure Encounter where
  visitId : String
  tenant : String
  status : EncStatus
  needsReview : Bool
  reviewReason : Option String
  serviceLine : String
  dischargeDisposition : Option String
  deriving DecidableEq, Repr

/-- Modelled from the spec (§3): a clinical line item, owned by one
    encounter and referencing the message that produced it. -/
structure LineItem where
  visitId : String
  tenant : String
  kind : MsgClass
  serviceLine : String
  physicianRef : Option String
  payload : String
  sourceControlId : String
  deriving DecidableEq, Repr

/-- Modelled from the spec (§3 Snapshot): an immutable, versioned
    point-in-time aggregate of one encounter and its line items. -/
structure Snapshot where
  visitId : String
  tenant : String
  version : Nat
  content : Encounter × List LineItem
  deriving DecidableEq, Repr

/-- The two billing components of a work-queue item. -/
inductive BillingComponent where
  | facility
  | professional
  deriving DecidableEq, Repr

/-- Modelled from the spec (§3 WorkQueueItem): one billing-scoped unit
    of coding work referencing exactly one snapshot version. -/
structure WorkItem where
  id : String
  visitId : String
  tenant : String
  component : BillingComponent
  snapshotVersion : Nat
  serviceLine : String
  deriving DecidableEq, Repr

/-- Modelled from the spec (§6): the tenant configuration flags the
    packet generator reads. -/
structure TenantConfig where
  always_create_facility : Bool
  always_create_professional : Bool
  professional_component_services : List String
  deriving DecidableEq, Repr

/-- Modelled from the spec (§6 persisted state): the per-tenant tables
    other than the raw-message log. -/
structure Core where
  encounters : List Encounter
  lineItems : List LineItem
  snapshots : List Snapshot
  workItems : List WorkItem
  readyLog : List (String × String)
  deriving DecidableEq, Repr

/-- Modelled from the spec: the full persisted state — the append-only
    raw-message log plus the clinical tables.  `readyLog` records one
    entry per `ready_to_code` transition (the packet-creation act),
    letting the exactly-once property be stated as a count. -/
structure PState where
  rawLog : List RawRow
  core : Core
  deriving DecidableEq, Repr

/-- Look up the encounter for a (tenant, visit identifier) pair. -/
def findEnc (core : Core) (t v : String) : Option Encounter :=
  core.encounters.find? (fun e => e.tenant == t && e.visitId == v)

/-- Replace the stored encounter carrying `enc`'s key by `enc`. -/
def setEncounter (core : Core) (enc : Encounter) : Core :=
  { core with
      encounters := core.encounters.map (fun e =>
        if e.tenant == enc.tenant && e.visitId == enc.visitId then enc else e) }

/-- The line items owned by one encounter. -/
def encItems (core : Core) (t v : String) : List LineItem :=
  core.lineItems.filter (fun it => it.tenant == t && it.visitId == v)

/-- Number of snapshot versions stored for one encounter; versions are
    allocated as this count plus one, so they increase strictly. -/
def snapCount (core : Core) (t v : String) : Nat :=
  core.snapshots.countP (fun sn => sn.tenant == t && sn.visitId == v)

/-- Number of `ready_to_code` transitions recorded for one encounter. -/
def readyCount (core : Core) (t v : String) : Nat :=
  core.readyLog.count (t, v)

/-- The work-queue items of one encounter. -/
def workItemsFor (core : Core) (t v : String) : List WorkItem :=
  core.workItems.filter (fun w => w.tenant == t && w.visitId == v)

/-- The lifecycle status of one encounter, if it exists. -/
def encStatusOf (core : Core) (t v : String) : Option EncStatus :=
  (findEnc core t v).map (fun e => e.status)

/-- Look up one snapshot version of one encounter. -/
def snapLookup (core : Core) (t v : String) (version : Nat) : Option Snapshot :=
  core.snapshots.find? (fun sn =>
    sn.tenant == t && sn.visitId == v && sn.version == version)

/-- Modelled from the spec (§4.6): service-line derivation evaluates an
    ordered configurable rule list and falls through to an `unassigned`
    default.  The rule list itself is tenant configuration, so here
    each line item carries the service line its matching rule assigned
    (empty when no rule matched) and the encounter's derived line is
    the first assigned one. -/
def deriveServiceLine (items : List LineItem) : String :=
  match items.find? (fun it => !(it.serviceLine == "")) with
  | some it => it.serviceLine
  | none => "unassigned"

/-- Modelled from the spec (§4.6, PDD §7.2): a professional item is
    created when the always-create flag is set, or a qualifying
    performing/interpreting physician reference exists on at least one
    line item, or the derived service line is in the configured
    professional-component list. -/
def shouldCreateProfessional (cfg : TenantConfig) (serviceLine : String)
    (items : List LineItem) : Bool :=
  cfg.always_create_professional ||
  items.any (fun it => it.physicianRef.isSome) ||
  cfg.professional_component_services.contains serviceLine

/-- Modelled from the spec (§4.6): the work-queue items created on
    readiness — the facility item by default unless configuration
    disables it, plus the professional item per
    `shouldCreateProfessional`; each stores its billing component, the
    snapshot version, and routing metadata. -/
def createWorkItems (cfg : TenantConfig) (enc : Encounter) (items : List LineItem)
    (version : Nat) : List WorkItem :=
  let sl := deriveServiceLine items
  (if cfg.always_create_facility then
    [⟨enc.visitId ++ ":facility", enc.visitId, enc.tenant, .facility, version, sl⟩]
  else []) ++
  (if shouldCreateProfessional cfg sl items then
    [⟨enc.visitId ++ ":professional", enc.visitId, enc.tenant, .professional,
      version, sl⟩]
  else [])

/-- Modelled from the spec (§4.5/§4.6): entering `ready_to_code` and
    generating the packet are one unit — record the transition, set the
    status, freeze the current aggregate as the next snapshot version,
    and create the work-queue items against it. -/
def triggerReadiness (cfg : TenantConfig) (core : Core) (enc : Encounter) : Core :=
  let ready : Encounter := { enc with status := .readyToCode }
  let items := encItems core enc.tenant enc.visitId
  let version := snapCount core enc.tenant enc.visitId + 1
  let core1 := setEncounter core ready
  { core1 with
      snapshots := core1.snapshots ++ [⟨enc.visitId, enc.tenant, version, (ready, items)⟩],
      workItems := core1.workItems ++ createWorkItems cfg ready items version,
      readyLog := core1.readyLog ++ [(enc.tenant, enc.visitId)] }

/-- Modelled from the spec (§4.2/§4.4): creating an encounter from its
    first message; creation from a non-admission message sets
    `needs_review` with a reason describing the anomaly. -/
def newEncounter (m : Msg) : Encounter :=
  { visitId := m.visitId
    tenant := m.tenant
    status :=
      if m.mclass = .discharge then .discharged
      else if m.mclass = .cancel then .cancelled
      else .opened
    needsReview := m.mclass ≠ .admission
    reviewReason :=
      if m.mclass = .admission then none
      else if m.mclass = .discharge then
        some "created from discharge; admission not received"
      else some "created from non-admission message; admission not received"
    serviceLine := m.serviceLine
    dischargeDisposition :=
      if m.mclass = .discharge then m.disposition else none }

/-- Which message classes create a clinical line item (§4.4: orders,
    results, documents and financial transactions do; the
    metadata-bearing classes do not). -/
def createsLineItem : MsgClass → Bool
  | .orderMsg => true
  | .resultMsg => true
  | .documentMsg => true
  | .financialMsg => true
  | _ => false

/-- The line item a content-bearing message creates, keeping a
    reference to the message that produced it. -/
def lineItemOf (m : Msg) : LineItem :=
  ⟨m.visitId, m.tenant, m.mclass, m.serviceLine, m.physicianRef, m.payload,
    m.controlId⟩

/-- Append the message's line item to the store. -/
def addItem (core : Core) (m : Msg) : Core :=
  { core with lineItems := core.lineItems ++ [lineItemOf m] }

/-- Modelled from the spec (§4.4/§4.5): the per-class update applied to
    an existing encounter.  A discharge on an `open` encounter sets the
    disposition and fires the readiness transition (one unit); on any
    other status it records the disposition only — the transition never
    fires twice.  A cancel moves any non-terminal encounter to
    `cancelled`.  Admission and the other metadata classes leave the
    status unchanged (`status → open if not already discharged` is a
    no-op on the statuses an existing encounter can hold). -/
def applyToExisting (cfg : TenantConfig) (core : Core) (m : Msg) (e : Encounter) :
    Core :=
  let core1 := if createsLineItem m.mclass then addItem core m else core
  if m.mclass = .discharge then
    if e.status = .opened then
      triggerReadiness cfg core1
        { e with status := .discharged, dischargeDisposition := m.disposition }
    else
      setEncounter core1 { e with dischargeDisposition := m.disposition }
  else if m.mclass = .cancel then
    if isTerminal e.status then core1
    else setEncounter core1 { e with status := .cancelled }
  else core1

/-- Modelled from the spec (§4.4): resolve the visit identifier to an
    encounter, creating one from the message if absent, store any line
    item the message carries, and apply the per-class rule; a
    discharge-created encounter proceeds straight into readiness. -/
def correlate (cfg : TenantConfig) (core : Core) (m : Msg) : Core :=
  match findEnc core m.tenant m.visitId with
  | some e => applyToExisting cfg core m e
  | none =>
      let e := newEncounter m
      let core0 := { core with encounters := core.encounters ++ [e] }
      let core1 := if createsLineItem m.mclass then addItem core0 m else core0
      if m.mclass = .discharge then triggerReadiness cfg core1 e else core1

/-- Modelled from the spec (§4.1/§7): the parser's per-message outcome —
    a parsed message, or a structurally unparseable one carrying only
    the failure detail. -/
inductive InMsg where
  | ok (m : Msg)
  | malformed (tenant detail : String)
  deriving DecidableEq, Repr

/-- Whether an input message parsed successfully. -/
def isOkMsg : InMsg → Bool
  | .ok _ => true
  | .malformed _ _ => false

/-- Modelled from the spec (§4.3): the idempotency check — a message is
    a duplicate solely by exact match on control identifier within a
    tenant. -/
def ledgerHas (s : PState) (cid t : String) : Bool :=
  s.rawLog.any (fun r => r.controlId == some cid && r.tenant == t)

/-- Modelled from the spec (§4.3/§7): process one input message.  A
    malformed message is recorded with outcome `error` and its detail,
    and nothing else changes.  A duplicate is recorded with outcome
    `duplicate` and never reaches the correlator.  A fresh message is
    recorded with outcome `processed` and correlated. -/
def processMsg (cfg : TenantConfig) (s : PState) (im : InMsg) : PState :=
  match im with
  | .malformed t detail =>
      { s with rawLog := s.rawLog ++ [⟨none, t, .error, some detail⟩] }
  | .ok m =>
      if ledgerHas s m.controlId m.tenant then
        { s with rawLog := s.rawLog ++ [⟨some m.controlId, m.tenant, .duplicate, none⟩] }
      else
        { rawLog := s.rawLog ++ [⟨some m.controlId, m.tenant, .processed, none⟩],
          core := correlate cfg s.core m }

/-- Modelled from the spec (§5): a batch is a bounded sequence of
    messages processed independently in order. -/
def processBatch (cfg : TenantConfig) (s : PState) (batch : List InMsg) : PState :=
  batch.foldl (processMsg cfg) s

/-- Modelled from the spec (§4.5/§6): the explicit operator "mark
    ready" action: from `open`, `discharged` or `stale` it forces
    `ready_to_code`, generating the packet as one unit; an encounter
    already `coded` feeds the refresh path instead and regenerates
    nothing. -/
def markReady (cfg : TenantConfig) (core : Core) (t v : String) : Core :=
  match findEnc core t v with
  | none => core
  | some e =>
      if e.status = .opened ∨ e.status = .discharged ∨ e.status = .stale then
        triggerReadiness cfg core e
      else core

/-- Modelled from the spec (§4.6 Refresh, called by the front end's
    `codingQueueApi.refreshSnapshot`): re-aggregate current encounter
    state into a new snapshot version (append-only) and repoint the
    work-queue item's snapshot reference; previously issued snapshots
    are never mutated. -/
def refreshSnapshot (core : Core) (itemId : String) : Core :=
  match core.workItems.find? (fun w => w.id == itemId) with
  | none => core
  | some wi =>
      match findEnc core wi.tenant wi.visitId with
      | none => core
      | some enc =>
          let items := encItems core wi.tenant wi.visitId
          let version := snapCount core wi.tenant wi.visitId + 1
          { core with
              snapshots := core.snapshots ++
                [⟨wi.visitId, wi.tenant, version, (enc, items)⟩],
              workItems := core.workItems.map (fun w =>
                if w.id == itemId then { w with snapshotVersion := version } else w) }

/-- Count the raw-message rows for a control identifier within a tenant
    carrying a given outcome. -/
def countRows (s : PState) (cid t : String) (o : Outcome) : Nat :=
  s.rawLog.countP (fun r =>
    r.controlId == some cid && r.tenant == t && r.outcome == o)

/-- Sample tenant configuration used by the concrete witnesses. -/
def cfgSample : TenantConfig := ⟨true, false, ["radiology"]⟩

/-- The empty clinical store. -/
def emptyCore : Core := ⟨[], [], [], [], []⟩

/-- The empty pipeline state. -/
def emptyState : PState := ⟨[], emptyCore⟩

/-- Sample admission message (control identifier MSG001, visit V100). -/
def msgAdmit : Msg := ⟨"MSG001", "t1", "V100", .admission, "", none, "adm", none⟩

/-- Sample discharge message (control identifier MSG002, visit V100). -/
def msgDischarge : Msg :=
  ⟨"MSG002", "t1", "V100", .discharge, "", none, "dis", some "01"⟩

/-- Sample retransmission: same control identifier and tenant as
    `msgDischarge`, different content. -/
def msgDischargeDup : Msg :=
  ⟨"MSG002", "t1", "V100", .discharge, "", none, "dis-retransmit", some "01"⟩

/-- Sample encounter already at `ready_to_code`, used by the refresh
    witness. -/
def encRefreshSample : Encounter :=
  ⟨"V100", "t1", .readyToCode, false, none, "", some "01"⟩

/-- Sample snapshot version 1 of `encRefreshSample`. -/
def snapSample : Snapshot := ⟨"V100", "t1", 1, (encRefreshSample, [])⟩

/-- Sample facility work item referencing snapshot version 1. -/
def wiSample : WorkItem := ⟨"V100:facility", "V100", "t1", .facility, 1, "unassigned"⟩

/-- Sample clinical store holding one encounter, its snapshot and its
    work item. -/
def coreRefreshSample : Core :=
  ⟨[encRefreshSample], [], [snapSample], [wiSample], [("t1", "V100")]⟩

/-- Sample order line item carrying a performing-physician reference,
    in a service line outside the configured professional list. -/
def itemPhys : LineItem :=
  ⟨"V100", "t1", .orderMsg, "cardiology", some "NPI-1", "ord", "MSG010"⟩

/-- Sample encounter used by the routing witness. -/
def encV100 : Encounter := ⟨"V100", "t1", .discharged, false, none, "", some "01"⟩

end Medcode

/-! # Theorems -/

namespace Medcode

/-- Claim C9: `ManageDataPanel` renders its upload interface if and only
    if the supplied `userRoles` list contains, compared
    case-insensitively, the role `coder` or the role `admin`; for every
    other role list, including the empty list, it renders nothing. -/
theorem manageDataPanel_renders_iff (userRoles : List String) :
    (manageDataPanel userRoles = .uploadInterface ↔
      ∃ r ∈ userRoles, r.toLower = "coder" ∨ r.toLower = "admin") ∧
    (manageDataPanel userRoles = .nothing ↔
      ¬ ∃ r ∈ userRoles, r.toLower = "coder" ∨ r.toLower = "admin") := by
  have hacc : hasAccess userRoles = true ↔
      ∃ r ∈ userRoles, r.toLower = "coder" ∨ r.toLower = "admin" := by
    simp [hasAccess, List.any_eq_true, List.elem_iff]
  constructor
  · rw [← hacc]
    unfold manageDataPanel
    by_cases h : hasAccess userRoles = true <;> simp [h]
  · rw [← hacc]
    unfold manageDataPanel
    by_cases h : hasAccess userRoles = true <;> simp [h]

/-- Claim C5: the billing classification of a financial entry follows
    the fixed cascade: facility revenue code ⇒ facility; else
    professional-component modifier (26) ⇒ professional; else
    technical-component modifier (TC) ⇒ facility; else an employed
    performing-provider reference ⇒ both (deferred to human review);
    otherwise facility.  `determine_charge_type` agrees with the
    claim's rule pointwise, where "employed" means the provider is in
    the registry with employment type hospital-employed. -/
theorem determine_charge_type_spec (reg : String → Option EmploymentType)
    (charge : Charge) :
    determine_charge_type reg charge =
      chargeTypeSpec (fun npi => reg npi = some .hospitalEmployed) charge := by
  unfold determine_charge_type chargeTypeSpec
  by_cases h1 : charge.revenue_code.isSome
  · simp [h1]
  · simp only [h1, Bool.false_eq_true, if_false]
    by_cases h2 : charge.procedure_modifier = some "26"
    · simp [h2]
    · simp only [h2, if_false]
      by_cases h3 : charge.procedure_modifier = some "TC"
      · simp [h3]
      · simp only [h3, if_false]
        cases hn : charge.performing_provider_npi with
        | none => rfl
        | some n =>
            cases hreg : reg n with
            | none => simp [hreg]
            | some e => cases e <;> simp [hreg]

/-! ## Helper lemmas for the code-list invariant -/

/-- Filtering never increases a `countP`. -/
theorem countP_filter_le {α : Type} (p q : α → Bool) (l : List α) :
    (l.filter q).countP p ≤ l.countP p := by
  induction l with
  | nil => simp
  | cons a l ih =>
      by_cases hq : q a <;> by_cases hp : p a <;>
        simp [List.filter_cons, hq, hp, List.countP_cons] <;> omega

/-- Resequencing diagnosis codes preserves the principal flags. -/
theorem dxResequenceFrom_countP (i : Nat) (l : List DiagnosisCode) :
    (dxResequenceFrom i l).countP (fun c => c.isPrincipal) =
      l.countP (fun c => c.isPrincipal) := by
  induction l generalizing i with
  | nil => rfl
  | cons c cs ih => simp [dxResequenceFrom, List.countP_cons, ih]

/-- After resequencing, every principal diagnosis code has sequence 1. -/
theorem dxResequenceFrom_principal_seq (i : Nat) (l : List DiagnosisCode) :
    ∀ c ∈ dxResequenceFrom i l, c.isPrincipal = true → c.sequence = 1 := by
  induction l generalizing i with
  | nil => intro c hc; simp [dxResequenceFrom] at hc
  | cons c cs ih =>
      intro d hd hp
      rw [dxResequenceFrom] at hd
      rcases List.mem_cons.mp hd with h | h
      · subst h
        simp only at hp ⊢
        simp [hp]
      · exact ih (i + 1) d h hp

/-- The demotion map of `dxAddCode` leaves no principal code behind. -/
theorem dxDemote_not_principal (codes : List DiagnosisCode) (n : Nat) :
    ∀ c ∈ codes.map (fun c =>
        if c.isPrincipal then
          ({ c with isPrincipal := false, sequence := n } : DiagnosisCode)
        else c),
      c.isPrincipal = false := by
  intro d hd
  rcases List.mem_map.mp hd with ⟨c, _, rfl⟩
  cases hcp : c.isPrincipal <;> simp [hcp]

/-- The principal-count after `dxMakePrincipal`'s flag map is the
    number of codes carrying the targeted id. -/
theorem dxMakePrincipal_countP (l : List DiagnosisCode) (id : String) :
    (l.map (fun c =>
      ({ c with
          isPrincipal := c.id = id,
          sequence := if c.id = id then 1 else c.sequence } : DiagnosisCode))).countP
        (fun c => c.isPrincipal) = (l.map (fun c => c.id)).count id := by
  induction l with
  | nil => rfl
  | cons c cs ih =>
      simp only [List.map_cons, List.countP_cons, List.count_cons, ih]
      by_cases h : c.id = id <;> simp [h]

/-- Resequencing procedure codes preserves the principal flags. -/
theorem pxResequenceFrom_countP (i : Nat) (l : List ProcedureCode) :
    (pxResequenceFrom i l).countP (fun c => c.isPrincipal) =
      l.countP (fun c => c.isPrincipal) := by
  induction l generalizing i with
  | nil => rfl
  | cons c cs ih => simp [pxResequenceFrom, List.countP_cons, ih]

/-- After resequencing, every principal procedure code has sequence 1. -/
theorem pxResequenceFrom_principal_seq (i : Nat) (l : List ProcedureCode) :
    ∀ c ∈ pxResequenceFrom i l, c.isPrincipal = true → c.sequence = 1 := by
  induction l generalizing i with
  | nil => intro c hc; simp [pxResequenceFrom] at hc
  | cons c cs ih =>
      intro d hd hp
      rw [pxResequenceFrom] at hd
      rcases List.mem_cons.mp hd with h | h
      · subst h
        simp only at hp ⊢
        simp [hp]
      · exact ih (i + 1) d h hp

/-- The demotion map of `pxAddCode` leaves no principal code behind. -/
theorem pxDemote_not_principal (codes : List ProcedureCode) (n : Nat) :
    ∀ c ∈ codes.map (fun c =>
        if c.isPrincipal then
          ({ c with isPrincipal := false, sequence := n } : ProcedureCode)
        else c),
      c.isPrincipal = false := by
  intro d hd
  rcases List.mem_map.mp hd with ⟨c, _, rfl⟩
  cases hcp : c.isPrincipal <;> simp [hcp]

/-- The principal-count after `pxMakePrincipal`'s flag map is the
    number of codes carrying the targeted id. -/
theorem pxMakePrincipal_countP (l : List ProcedureCode) (id : String) :
    (l.map (fun c =>
      ({ c with
          isPrincipal := c.id = id,
          sequence := if c.id = id then 1 else c.sequence } : ProcedureCode))).countP
        (fun c => c.isPrincipal) = (l.map (fun c => c.id)).count id := by
  induction l with
  | nil => rfl
  | cons c cs ih =>
      simp only [List.map_cons, List.countP_cons, List.count_cons, ih]
      by_cases h : c.id = id <;> simp [h]

/-- `dxAddCode` with the principal flag, unfolded. -/
theorem dxAddCode_true_eq (codes : List DiagnosisCode) (nid cd ds : String) :
    dxAddCode codes nid cd ds true =
      ⟨nid, cd, ds, true, some "Y", 1⟩ ::
        codes.map (fun c =>
          if c.isPrincipal then
            ({ c with isPrincipal := false, sequence := codes.length + 1 } : DiagnosisCode)
          else c) := rfl

/-- `dxAddCode` without the principal flag, unfolded. -/
theorem dxAddCode_false_eq (codes : List DiagnosisCode) (nid cd ds : String) :
    dxAddCode codes nid cd ds false =
      codes ++ [⟨nid, cd, ds, false, some "Y", codes.length + 1⟩] := rfl

/-- `pxAddCode` with the principal flag, unfolded. -/
theorem pxAddCode_true_eq (codes : List ProcedureCode) (nid cd ds ct : String) :
    pxAddCode codes nid cd ds ct true =
      ⟨nid, cd, ds, ct, true, 1, none⟩ ::
        codes.map (fun c =>
          if c.isPrincipal then
            ({ c with isPrincipal := false, sequence := codes.length + 1 } : ProcedureCode)
          else c) := rfl

/-- `pxAddCode` without the principal flag, unfolded. -/
theorem pxAddCode_false_eq (codes : List ProcedureCode) (nid cd ds ct : String) :
    pxAddCode codes nid cd ds ct false =
      codes ++ [⟨nid, cd, ds, ct, false, codes.length + 1, none⟩] := rfl

/-- Adding a principal diagnosis code re-establishes the invariant
    unconditionally. -/
theorem dxAddCode_principal_inv (codes : List DiagnosisCode) (nid cd ds : String) :
    dxInvariant (dxAddCode codes nid cd ds true) := by
  rw [dxAddCode_true_eq]
  unfold dxInvariant
  refine ⟨?_, ?_⟩
  · rw [List.countP_cons]
    have h0 : (codes.map (fun c =>
        if c.isPrincipal then
          ({ c with isPrincipal := false, sequence := codes.length + 1 } : DiagnosisCode)
        else c)).countP (fun c => c.isPrincipal) = 0 :=
      List.countP_eq_zero.mpr (fun a ha => by
        simp [dxDemote_not_principal codes (codes.length + 1) a ha])
    simp [h0]
  · intro c hc hp
    rcases List.mem_cons.mp hc with h | h
    · subst h; rfl
    · exact absurd hp (by
        simp [dxDemote_not_principal codes (codes.length + 1) c h])

/-- Adding a secondary diagnosis code preserves the invariant. -/
theorem dxAddCode_secondary_inv (codes : List DiagnosisCode) (nid cd ds : String)
    (h : dxInvariant codes) : dxInvariant (dxAddCode codes nid cd ds false) := by
  obtain ⟨hc, hs⟩ := h
  rw [dxAddCode_false_eq]
  unfold dxInvariant
  refine ⟨?_, ?_⟩
  · rw [List.countP_append]
    simpa using hc
  · intro c hcm hp
    rcases List.mem_append.mp hcm with h | h
    · exact hs c h hp
    · simp at h; subst h; simp at hp

/-- Removing a diagnosis code preserves the invariant. -/
theorem dxRemoveCode_inv (codes : List DiagnosisCode) (rid : String)
    (h : dxInvariant codes) : dxInvariant (dxRemoveCode codes rid) := by
  obtain ⟨hc, _⟩ := h
  unfold dxRemoveCode dxInvariant
  refine ⟨?_, ?_⟩
  · rw [dxResequenceFrom_countP]
    exact le_trans (countP_filter_le _ _ _) hc
  · exact dxResequenceFrom_principal_seq 0 _

/-- Promoting a diagnosis code preserves the invariant provided the ids
    are pairwise distinct (they are `crypto.randomUUID()` values). -/
theorem dxMakePrincipal_inv (codes : List DiagnosisCode) (mid : String)
    (hnd : (codes.map (fun c => c.id)).Nodup) :
    dxInvariant (dxMakePrincipal codes mid) := by
  unfold dxMakePrincipal dxInvariant
  refine ⟨?_, ?_⟩
  · rw [dxResequenceFrom_countP, dxMakePrincipal_countP]
    exact List.nodup_iff_count_le_one.mp hnd mid
  · exact dxResequenceFrom_principal_seq 0 _

/-- Adding a principal procedure code re-establishes the invariant
    unconditionally. -/
theorem pxAddCode_principal_inv (codes : List ProcedureCode) (nid cd ds ct : String) :
    pxInvariant (pxAddCode codes nid cd ds ct true) := by
  rw [pxAddCode_true_eq]
  unfold pxInvariant
  refine ⟨?_, ?_⟩
  · rw [List.countP_cons]
    have h0 : (codes.map (fun c =>
        if c.isPrincipal then
          ({ c with isPrincipal := false, sequence := codes.length + 1 } : ProcedureCode)
        else c)).countP (fun c => c.isPrincipal) = 0 :=
      List.countP_eq_zero.mpr (fun a ha => by
        simp [pxDemote_not_principal codes (codes.length + 1) a ha])
    simp [h0]
  · intro c hc hp
    rcases List.mem_cons.mp hc with h | h
    · subst h; rfl
    · exact absurd hp (by
        simp [pxDemote_not_principal codes (codes.length + 1) c h])

/-- Adding a secondary procedure code preserves the invariant. -/
theorem pxAddCode_secondary_inv (codes : List ProcedureCode) (nid cd ds ct : String)
    (h : pxInvariant codes) : pxInvariant (pxAddCode codes nid cd ds ct false) := by
  obtain ⟨hc, hs⟩ := h
  rw [pxAddCode_false_eq]
  unfold pxInvariant
  refine ⟨?_, ?_⟩
  · rw [List.countP_append]
    simpa using hc
  · intro c hcm hp
    rcases List.mem_append.mp hcm with h | h
    · exact hs c h hp
    · simp at h; subst h; simp at hp

/-- Removing a procedure code preserves the invariant. -/
theorem pxRemoveCode_inv (codes : List ProcedureCode) (rid : String)
    (h : pxInvariant codes) : pxInvariant (pxRemoveCode codes rid) := by
  obtain ⟨hc, _⟩ := h
  unfold pxRemoveCode pxInvariant
  refine ⟨?_, ?_⟩
  · rw [pxResequenceFrom_countP]
    exact le_trans (countP_filter_le _ _ _) hc
  · exact pxResequenceFrom_principal_seq 0 _

/-- Promoting a procedure code preserves the invariant provided the ids
    are pairwise distinct. -/
theorem pxMakePrincipal_inv (codes : List ProcedureCode) (mid : String)
    (hnd : (codes.map (fun c => c.id)).Nodup) :
    pxInvariant (pxMakePrincipal codes mid) := by
  unfold pxMakePrincipal pxInvariant
  refine ⟨?_, ?_⟩
  · rw [pxResequenceFrom_countP, pxMakePrincipal_countP]
    exact List.nodup_iff_count_le_one.mp hnd mid
  · exact pxResequenceFrom_principal_seq 0 _

/-- Claim C10: in the diagnosis-entry and procedure-entry code lists,
    every operation (add as principal, add as secondary, remove,
    make-principal) preserves the invariant that at most one code in
    the resulting list has `isPrincipal = true` and that a principal
    code always has sequence 1; in particular, adding a new principal
    code demotes any existing principal to a secondary code.  Ids are
    assumed pairwise distinct, as produced by `crypto.randomUUID()`. -/
theorem coding_entry_principal_invariant
    (dxs : List DiagnosisCode) (pxs : List ProcedureCode)
    (nid cd ds ct rid mid : String)
    (hdx : dxInvariant dxs) (hpx : pxInvariant pxs)
    (hdnd : (dxs.map (fun c => c.id)).Nodup)
    (hpnd : (pxs.map (fun c => c.id)).Nodup) :
    (dxInvariant (dxAddCode dxs nid cd ds true) ∧
      dxInvariant (dxAddCode dxs nid cd ds false) ∧
      dxInvariant (dxRemoveCode dxs rid) ∧
      dxInvariant (dxMakePrincipal dxs mid) ∧
      ∀ c ∈ (dxAddCode dxs nid cd ds true).tail, c.isPrincipal = false) ∧
    (pxInvariant (pxAddCode pxs nid cd ds ct true) ∧
      pxInvariant (pxAddCode pxs nid cd ds ct false) ∧
      pxInvariant (pxRemoveCode pxs rid) ∧
      pxInvariant (pxMakePrincipal pxs mid) ∧
      ∀ c ∈ (pxAddCode pxs nid cd ds ct true).tail, c.isPrincipal = false) := by
  refine ⟨⟨dxAddCode_principal_inv dxs nid cd ds,
           dxAddCode_secondary_inv dxs nid cd ds hdx,
           dxRemoveCode_inv dxs rid hdx,
           dxMakePrincipal_inv dxs mid hdnd, ?_⟩,
          ⟨pxAddCode_principal_inv pxs nid cd ds ct,
           pxAddCode_secondary_inv pxs nid cd ds ct hpx,
           pxRemoveCode_inv pxs rid hpx,
           pxMakePrincipal_inv pxs mid hpnd, ?_⟩⟩
  · rw [dxAddCode_true_eq]
    exact dxDemote_not_principal dxs (dxs.length + 1)
  · rw [pxAddCode_true_eq]
    exact pxDemote_not_principal pxs (pxs.length + 1)

/-- Witness for claim C10 at a concrete two-element list. -/
theorem coding_entry_principal_invariant_witness :
    (dxInvariant dxSample ∧ pxInvariant pxSample ∧
      ((dxSample.map (fun c => c.id)).Nodup ∧
        (pxSample.map (fun c => c.id)).Nodup)) ∧
    ((dxInvariant (dxAddCode dxSample "w" "C00" "third" true) ∧
      dxInvariant (dxAddCode dxSample "w" "C00" "third" false) ∧
      dxInvariant (dxRemoveCode dxSample "a") ∧
      dxInvariant (dxMakePrincipal dxSample "b") ∧
      ∀ c ∈ (dxAddCode dxSample "w" "C00" "third" true).tail,
        c.isPrincipal = false) ∧
     (pxInvariant (pxAddCode pxSample "w" "C00" "third" "CPT" true) ∧
      pxInvariant (pxAddCode pxSample "w" "C00" "third" "CPT" false) ∧
      pxInvariant (pxRemoveCode pxSample "a") ∧
      pxInvariant (pxMakePrincipal pxSample "b") ∧
      ∀ c ∈ (pxAddCode pxSample "w" "C00" "third" "CPT" true).tail,
        c.isPrincipal = false)) :=
  ⟨⟨by decide, by decide, by decide, by decide⟩,
    coding_entry_principal_invariant dxSample pxSample "w" "C00" "third" "CPT" "a" "b"
      (by decide) (by decide) (by decide) (by decide)⟩

/-! ## The readiness state machine moves forward only -/

/-- Claim C8: for every reachable encounter and every applied operation
    (message update, sweep, operator action), the lifecycle status only
    moves forward along `open → discharged → ready_to_code → coded`,
    with `stale` reachable from `open` or `discharged` and `cancelled`
    terminal from any non-terminal state; the sole exception to forward
    motion is that a `stale` encounter may be manually forced to
    `ready_to_code`. -/
theorem status_moves_forward (s : EncStatus) (op : EncOp) :
    allowedMove s (stepStatus s op) := by
  cases s <;> cases op <;> decide

/-! ## Pipeline equation lemmas -/

/-- Processing a malformed message appends exactly its error row. -/
theorem processMsg_malformed_eq (cfg : TenantConfig) (s : PState) (t detail : String) :
    processMsg cfg s (.malformed t detail) =
      { s with rawLog := s.rawLog ++ [⟨none, t, .error, some detail⟩] } := rfl

/-- Processing a duplicate message appends exactly its duplicate row. -/
theorem processMsg_dup_eq (cfg : TenantConfig) (s : PState) (m : Msg)
    (h : ledgerHas s m.controlId m.tenant = true) :
    processMsg cfg s (.ok m) =
      { s with rawLog := s.rawLog ++
          [⟨some m.controlId, m.tenant, .duplicate, none⟩] } := by
  simp [processMsg, h]

/-- Processing a fresh message appends its processed row and runs the
    correlator. -/
theorem processMsg_fresh_eq (cfg : TenantConfig) (s : PState) (m : Msg)
    (h : ledgerHas s m.controlId m.tenant = false) :
    processMsg cfg s (.ok m) =
      ⟨s.rawLog ++ [⟨some m.controlId, m.tenant, .processed, none⟩],
        correlate cfg s.core m⟩ := by
  simp [processMsg, h]

/-- Appending one raw row extends a ledger check by that row's match. -/
theorem ledgerHas_append (l : List RawRow) (c : Core) (r : RawRow) (cid t : String) :
    ledgerHas ⟨l ++ [r], c⟩ cid t =
      (ledgerHas ⟨l, c⟩ cid t || (r.controlId == some cid && r.tenant == t)) := by
  simp [ledgerHas, List.any_append]

/-- Every processed input message appends exactly one raw row. -/
theorem processMsg_rawLog_len (cfg : TenantConfig) (s : PState) (im : InMsg) :
    (processMsg cfg s im).rawLog.length = s.rawLog.length + 1 := by
  cases im with
  | malformed t d => simp [processMsg]
  | ok m =>
      by_cases h : ledgerHas s m.controlId m.tenant <;> simp [processMsg, h]

/-- A batch of n messages appends exactly n raw rows. -/
theorem processBatch_rawLog_len (cfg : TenantConfig) (batch : List InMsg)
    (s : PState) :
    (processBatch cfg s batch).rawLog.length = s.rawLog.length + batch.length := by
  induction batch generalizing s with
  | nil => simp [processBatch]
  | cons im rest ih =>
      show (processBatch cfg (processMsg cfg s im) rest).rawLog.length = _
      rw [ih (processMsg cfg s im), processMsg_rawLog_len]
      simp
      omega

/-- Processing one parsed message from two states that agree on the
    clinical store and on every ledger answer keeps them agreeing. -/
theorem processMsg_ok_congr (cfg : TenantConfig) (s₁ s₂ : PState) (m : Msg)
    (hcore : s₁.core = s₂.core)
    (hled : ∀ cid t, ledgerHas s₁ cid t = ledgerHas s₂ cid t) :
    (processMsg cfg s₁ (.ok m)).core = (processMsg cfg s₂ (.ok m)).core ∧
    ∀ cid t, ledgerHas (processMsg cfg s₁ (.ok m)) cid t =
      ledgerHas (processMsg cfg s₂ (.ok m)) cid t := by
  by_cases h : ledgerHas s₁ m.controlId m.tenant
  · have h₂ : ledgerHas s₂ m.controlId m.tenant = true := by rw [← hled]; exact h
    rw [processMsg_dup_eq cfg s₁ m h, processMsg_dup_eq cfg s₂ m h₂]
    refine ⟨hcore, ?_⟩
    intro cid t
    rw [ledgerHas_append, ledgerHas_append, hled]
  · have h₁ : ledgerHas s₁ m.controlId m.tenant = false := by simpa using h
    have h₂ : ledgerHas s₂ m.controlId m.tenant = false := by rw [← hled]; exact h₁
    rw [processMsg_fresh_eq cfg s₁ m h₁, processMsg_fresh_eq cfg s₂ m h₂]
    refine ⟨by rw [hcore], ?_⟩
    intro cid t
    rw [ledgerHas_append, ledgerHas_append]
    have e₁ : ledgerHas ⟨s₁.rawLog, correlate cfg s₁.core m⟩ cid t =
        ledgerHas s₁ cid t := rfl
    have e₂ : ledgerHas ⟨s₂.rawLog, correlate cfg s₂.core m⟩ cid t =
        ledgerHas s₂ cid t := rfl
    rw [e₁, e₂, hled]

/-- A malformed message changes no ledger answer (its row carries no
    control identifier) and no clinical state. -/
theorem processMsg_malformed_congr (cfg : TenantConfig) (s : PState)
    (t detail : String) :
    (processMsg cfg s (.malformed t detail)).core = s.core ∧
    ∀ cid tn, ledgerHas (processMsg cfg s (.malformed t detail)) cid tn =
      ledgerHas s cid tn := by
  rw [processMsg_malformed_eq]
  refine ⟨rfl, ?_⟩
  intro cid tn
  rw [ledgerHas_append]
  simp

/-- Dropping the malformed messages from a batch does not change the
    resulting clinical store. -/
theorem processBatch_filter_core (cfg : TenantConfig) (batch : List InMsg)
    (s₁ s₂ : PState) (hcore : s₁.core = s₂.core)
    (hled : ∀ cid t, ledgerHas s₁ cid t = ledgerHas s₂ cid t) :
    (processBatch cfg s₁ batch).core =
      (processBatch cfg s₂ (batch.filter isOkMsg)).core := by
  induction batch generalizing s₁ s₂ with
  | nil => simpa [processBatch] using hcore
  | cons im rest ih =>
      cases im with
      | malformed t d =>
          obtain ⟨hc, hl⟩ := processMsg_malformed_congr cfg s₁ t d
          have hfilter : (InMsg.malformed t d :: rest).filter isOkMsg =
              rest.filter isOkMsg := by simp [isOkMsg]
          rw [hfilter]
          show (processBatch cfg (processMsg cfg s₁ (.malformed t d)) rest).core = _
          exact ih _ s₂ (hc.trans hcore) (fun cid tn => (hl cid tn).trans (hled cid tn))
      | ok m =>
          obtain ⟨hc, hl⟩ := processMsg_ok_congr cfg s₁ s₂ m hcore hled
          have hfilter : (InMsg.ok m :: rest).filter isOkMsg =
              InMsg.ok m :: rest.filter isOkMsg := by simp [isOkMsg]
          rw [hfilter]
          show (processBatch cfg (processMsg cfg s₁ (.ok m)) rest).core =
            (processBatch cfg (processMsg cfg s₂ (.ok m)) (rest.filter isOkMsg)).core
          exact ih _ _ hc hl

/-- Claim C7: a structurally unparseable message in a batch has its
    failure recorded with detail on its own RawMessage row only —
    processing it appends exactly one error row and changes nothing
    else — every message in the batch still gets its own raw row, and
    the clinical outcome of the batch is exactly that of the batch with
    the malformed messages dropped: no malformed message aborts the
    batch or the ingesting process. -/
theorem malformed_message_isolated (cfg : TenantConfig) (s : PState)
    (batch : List InMsg) (t detail : String) :
    processMsg cfg s (.malformed t detail) =
      { s with rawLog := s.rawLog ++ [⟨none, t, Outcome.error, some detail⟩] } ∧
    (processBatch cfg s batch).rawLog.length = s.rawLog.length + batch.length ∧
    (processBatch cfg s batch).core =
      (processBatch cfg s (batch.filter isOkMsg)).core :=
  ⟨rfl, processBatch_rawLog_len cfg batch s,
    processBatch_filter_core cfg batch s s rfl (fun _ _ => rfl)⟩

/-! ## Idempotent resubmission -/

/-- Counting rows across an appended row. -/
theorem countRows_append (l : List RawRow) (c : Core) (r : RawRow) (cid t : String)
    (o : Outcome) :
    countRows ⟨l ++ [r], c⟩ cid t o =
      countRows ⟨l, c⟩ cid t o +
        (if r.controlId == some cid && r.tenant == t && r.outcome == o then 1
         else 0) := by
  simp [countRows, List.countP_append, List.countP_cons]

/-- A control identifier absent from the ledger has no rows at all. -/
theorem countRows_eq_zero (s : PState) (cid t : String) (o : Outcome)
    (h : ledgerHas s cid t = false) : countRows s cid t o = 0 := by
  unfold ledgerHas at h
  rw [List.any_eq_false] at h
  unfold countRows
  refine List.countP_eq_zero.mpr ?_
  intro r hr
  have hm := h r hr
  simp only [Bool.and_eq_true, not_and] at hm ⊢
  intro hc _
  exact hm hc.1 hc.2

/-- Claim C1: submitting the same raw message twice (same control
    identifier, any content) appends exactly one RawMessage row with
    outcome `duplicate` on the second submission and changes nothing
    else — the correlated encounter, its line items, snapshots and
    work-queue items are untouched — so there is exactly one set of
    line items, one `processed` row and one `duplicate` row for that
    control identifier. -/
theorem resubmission_idempotent (cfg : TenantConfig) (s : PState) (m m' : Msg)
    (hcid : m'.controlId = m.controlId) (ht : m'.tenant = m.tenant)
    (hfresh : ledgerHas s m.controlId m.tenant = false) :
    processMsg cfg (processMsg cfg s (.ok m)) (.ok m') =
      { processMsg cfg s (.ok m) with
          rawLog := (processMsg cfg s (.ok m)).rawLog ++
            [⟨some m.controlId, m.tenant, .duplicate, none⟩] } ∧
    countRows (processMsg cfg (processMsg cfg s (.ok m)) (.ok m')) m.controlId
      m.tenant .processed = 1 ∧
    countRows (processMsg cfg (processMsg cfg s (.ok m)) (.ok m')) m.controlId
      m.tenant .duplicate = 1 := by
  have h1 := processMsg_fresh_eq cfg s m hfresh
  have hdup : ledgerHas (processMsg cfg s (.ok m)) m'.controlId m'.tenant = true := by
    rw [h1, hcid, ht, ledgerHas_append]
    simp
  have h2 := processMsg_dup_eq cfg (processMsg cfg s (.ok m)) m' hdup
  rw [hcid, ht] at h2
  have hz : ∀ o : Outcome,
      countRows ⟨s.rawLog, correlate cfg s.core m⟩ m.controlId m.tenant o = 0 := by
    intro o
    have : countRows ⟨s.rawLog, correlate cfg s.core m⟩ m.controlId m.tenant o =
        countRows s m.controlId m.tenant o := rfl
    rw [this]
    exact countRows_eq_zero s m.controlId m.tenant o hfresh
  refine ⟨h2, ?_, ?_⟩
  · rw [h2, h1]
    dsimp only
    rw [countRows_append, countRows_append, hz]
    simp
  · rw [h2, h1]
    dsimp only
    rw [countRows_append, countRows_append, hz]
    simp

/-- Witness for claim C1 at a concrete state and message pair. -/
theorem resubmission_idempotent_witness :
    (msgDischargeDup.controlId = msgDischarge.controlId ∧
      msgDischargeDup.tenant = msgDischarge.tenant ∧
      ledgerHas emptyState msgDischarge.controlId msgDischarge.tenant = false) ∧
    (processMsg cfgSample (processMsg cfgSample emptyState (.ok msgDischarge))
        (.ok msgDischargeDup) =
      { processMsg cfgSample emptyState (.ok msgDischarge) with
          rawLog := (processMsg cfgSample emptyState (.ok msgDischarge)).rawLog ++
            [⟨some msgDischarge.controlId, msgDischarge.tenant, .duplicate, none⟩] } ∧
     countRows (processMsg cfgSample (processMsg cfgSample emptyState
        (.ok msgDischarge)) (.ok msgDischargeDup)) msgDischarge.controlId
        msgDischarge.tenant .processed = 1 ∧
     countRows (processMsg cfgSample (processMsg cfgSample emptyState
        (.ok msgDischarge)) (.ok msgDischargeDup)) msgDischarge.controlId
        msgDischarge.tenant .duplicate = 1) :=
  ⟨⟨rfl, rfl, by decide⟩,
    resubmission_idempotent cfgSample emptyState msgDischarge msgDischargeDup
      rfl rfl (by decide)⟩

/-! ## Snapshot refresh -/

/-- `find?` commutes with a map that cannot change the predicate's
    verdict. -/
theorem find?_map_congr {α : Type} (p : α → Bool) (f : α → α) (l : List α)
    (hpf : ∀ a, p (f a) = p a) :
    (l.map f).find? p = (l.find? p).map f := by
  rw [List.find?_map]
  have hc : (p ∘ f) = p := funext hpf
  rw [hc]

/-- Looking an encounter up after an in-place update returns the
    original lookup with the matching record replaced. -/
theorem findEnc_setEncounter (core : Core) (enc : Encounter) (t v : String) :
    findEnc (setEncounter core enc) t v =
      (findEnc core t v).map (fun e =>
        if e.tenant == enc.tenant && e.visitId == enc.visitId then enc else e) := by
  unfold findEnc setEncounter
  dsimp only
  rw [find?_map_congr]
  intro e
  by_cases h : e.tenant == enc.tenant && e.visitId == enc.visitId
  · rw [if_pos h]
    simp only [Bool.and_eq_true, beq_iff_eq] at h
    rw [h.1, h.2]
  · rw [if_neg h]

/-- Replacing an encounter by an update with the same key makes the
    lookup return the update. -/
theorem findEnc_setEncounter_self (core : Core) (e e' : Encounter) (t v : String)
    (hfind : findEnc core t v = some e)
    (ht : e'.tenant = e.tenant) (hv : e'.visitId = e.visitId) :
    findEnc (setEncounter core e') t v = some e' := by
  rw [findEnc_setEncounter, hfind]
  simp [ht, hv]

/-- Claim C4: refreshing a work-queue item's snapshot leaves the
    content of the version the item previously referenced unchanged;
    it only appends one new snapshot version — strictly greater than
    every existing version of that encounter — and repoints the item's
    snapshot reference, touching no other work item, encounter or line
    item. -/
theorem refresh_snapshot_immutable (core : Core) (itemId : String) (wi : WorkItem)
    (e : Encounter)
    (hfind : core.workItems.find? (fun w => w.id == itemId) = some wi)
    (henc : findEnc core wi.tenant wi.visitId = some e)
    (hver : ∀ sn ∈ core.snapshots, sn.tenant = wi.tenant → sn.visitId = wi.visitId →
      sn.version ≤ snapCount core wi.tenant wi.visitId)
    (hwver : wi.snapshotVersion ≤ snapCount core wi.tenant wi.visitId) :
    snapLookup (refreshSnapshot core itemId) wi.tenant wi.visitId
        wi.snapshotVersion =
      snapLookup core wi.tenant wi.visitId wi.snapshotVersion ∧
    (refreshSnapshot core itemId).snapshots =
      core.snapshots ++
        [⟨wi.visitId, wi.tenant, snapCount core wi.tenant wi.visitId + 1,
          (e, encItems core wi.tenant wi.visitId)⟩] ∧
    (∀ sn ∈ core.snapshots, sn.tenant = wi.tenant → sn.visitId = wi.visitId →
      sn.version < snapCount core wi.tenant wi.visitId + 1) ∧
    (refreshSnapshot core itemId).workItems.find? (fun w => w.id == itemId) =
      some { wi with snapshotVersion := snapCount core wi.tenant wi.visitId + 1 } ∧
    (∀ w ∈ core.workItems, w.id ≠ itemId →
      w ∈ (refreshSnapshot core itemId).workItems) ∧
    (refreshSnapshot core itemId).encounters = core.encounters ∧
    (refreshSnapshot core itemId).lineItems = core.lineItems := by
  have heq : refreshSnapshot core itemId =
      { core with
          snapshots := core.snapshots ++
            [⟨wi.visitId, wi.tenant, snapCount core wi.tenant wi.visitId + 1,
              (e, encItems core wi.tenant wi.visitId)⟩],
          workItems := core.workItems.map (fun w =>
            if w.id == itemId then
              { w with snapshotVersion := snapCount core wi.tenant wi.visitId + 1 }
            else w) } := by
    unfold refreshSnapshot
    rw [hfind]
    dsimp only
    rw [henc]
  have hidfound' := List.find?_some hfind
  have hidfound : (wi.id == itemId) = true := hidfound'
  rw [heq]
  refine ⟨?_, rfl, ?_, ?_, ?_, rfl, rfl⟩
  · unfold snapLookup
    dsimp only
    rw [List.find?_append]
    have hnew : (List.find? (fun sn : Snapshot =>
        sn.tenant == wi.tenant && sn.visitId == wi.visitId &&
          sn.version == wi.snapshotVersion)
        [⟨wi.visitId, wi.tenant, snapCount core wi.tenant wi.visitId + 1,
          (e, encItems core wi.tenant wi.visitId)⟩]) = none := by
      simp only [List.find?_cons, List.find?_nil]
      have : ((snapCount core wi.tenant wi.visitId + 1 : Nat) ==
          wi.snapshotVersion) = false := by
        simp only [beq_eq_false_iff_ne, ne_eq]
        omega
      simp [this]
    rw [hnew, Option.or_none]
  · intro sn hsn h1 h2
    have := hver sn hsn h1 h2
    omega
  · dsimp only
    have hkey : ∀ w : WorkItem,
        ((if (w.id == itemId) = true then
            ({ w with snapshotVersion :=
                snapCount core wi.tenant wi.visitId + 1 } : WorkItem)
          else w).id == itemId) = (w.id == itemId) := by
      intro w
      by_cases h : (w.id == itemId) = true
      · rw [if_pos h]
      · rw [if_neg h]
    rw [find?_map_congr _ _ _ hkey, hfind]
    simp only [Option.map_some']
    rw [if_pos hidfound]
  · intro w hw hne
    dsimp only
    refine List.mem_map.mpr ⟨w, hw, ?_⟩
    have : (w.id == itemId) = false := by simp [hne]
    simp [this]

/-- Witness for claim C4 at a concrete store with one snapshot and one
    work item. -/
theorem refresh_snapshot_immutable_witness :
    (coreRefreshSample.workItems.find? (fun w => w.id == "V100:facility") =
        some wiSample ∧
      findEnc coreRefreshSample wiSample.tenant wiSample.visitId =
        some encRefreshSample ∧
      (∀ sn ∈ coreRefreshSample.snapshots, sn.tenant = wiSample.tenant →
        sn.visitId = wiSample.visitId →
        sn.version ≤ snapCount coreRefreshSample wiSample.tenant wiSample.visitId) ∧
      wiSample.snapshotVersion ≤
        snapCount coreRefreshSample wiSample.tenant wiSample.visitId) ∧
    (snapLookup (refreshSnapshot coreRefreshSample "V100:facility") wiSample.tenant
        wiSample.visitId wiSample.snapshotVersion =
      snapLookup coreRefreshSample wiSample.tenant wiSample.visitId
        wiSample.snapshotVersion ∧
     (refreshSnapshot coreRefreshSample "V100:facility").snapshots =
      coreRefreshSample.snapshots ++
        [⟨wiSample.visitId, wiSample.tenant,
          snapCount coreRefreshSample wiSample.tenant wiSample.visitId + 1,
          (encRefreshSample,
            encItems coreRefreshSample wiSample.tenant wiSample.visitId)⟩] ∧
     (∀ sn ∈ coreRefreshSample.snapshots, sn.tenant = wiSample.tenant →
        sn.visitId = wiSample.visitId →
        sn.version <
          snapCount coreRefreshSample wiSample.tenant wiSample.visitId + 1) ∧
     (refreshSnapshot coreRefreshSample "V100:facility").workItems.find?
        (fun w => w.id == "V100:facility") =
      some { wiSample with
              snapshotVersion :=
                snapCount coreRefreshSample wiSample.tenant wiSample.visitId + 1 } ∧
     (∀ w ∈ coreRefreshSample.workItems, w.id ≠ "V100:facility" →
        w ∈ (refreshSnapshot coreRefreshSample "V100:facility").workItems) ∧
     (refreshSnapshot coreRefreshSample "V100:facility").encounters =
        coreRefreshSample.encounters ∧
     (refreshSnapshot coreRefreshSample "V100:facility").lineItems =
        coreRefreshSample.lineItems) :=
  ⟨⟨by decide, by decide, by decide, by decide⟩,
    refresh_snapshot_immutable coreRefreshSample "V100:facility" wiSample
      encRefreshSample (by decide) (by decide) (by decide) (by decide)⟩

/-! ## Facility/professional routing -/

/-- The derived service line is `unassigned` or one carried by a line
    item. -/
theorem deriveServiceLine_cases (items : List LineItem) :
    deriveServiceLine items = "unassigned" ∨
      ∃ it ∈ items, deriveServiceLine items = it.serviceLine := by
  unfold deriveServiceLine
  cases hf : items.find? (fun it => !(it.serviceLine == "")) with
  | none => exact Or.inl rfl
  | some it => exact Or.inr ⟨it, List.mem_of_find?_eq_some hf, rfl⟩

/-- Claim C6: under a tenant configuration with
    `always_create_professional = false` and
    `professional_component_services = ["radiology"]`, an encounter
    reaching readiness whose line items all carry a non-matching
    service line and no qualifying physician reference produces exactly
    one work-queue item (the facility item); if at least one line item
    carries a qualifying performing/interpreting physician reference, a
    professional item is created in addition by the readiness
    evaluation. -/
theorem professional_routing (cfg : TenantConfig) (enc : Encounter)
    (items : List LineItem) (v : Nat)
    (hfac : cfg.always_create_facility = true)
    (hprof : cfg.always_create_professional = false)
    (hsvc : cfg.professional_component_services = ["radiology"])
    (hnm : ∀ it ∈ items, it.serviceLine ≠ "radiology") :
    ((∀ it ∈ items, it.physicianRef = none) →
      createWorkItems cfg enc items v =
        [⟨enc.visitId ++ ":facility", enc.visitId, enc.tenant, .facility, v,
          deriveServiceLine items⟩]) ∧
    ((∃ it ∈ items, it.physicianRef.isSome) →
      ⟨enc.visitId ++ ":facility", enc.visitId, enc.tenant, .facility, v,
          deriveServiceLine items⟩ ∈ createWorkItems cfg enc items v ∧
      ⟨enc.visitId ++ ":professional", enc.visitId, enc.tenant, .professional, v,
          deriveServiceLine items⟩ ∈ createWorkItems cfg enc items v) := by
  have hsl : cfg.professional_component_services.contains
      (deriveServiceLine items) = false := by
    rw [hsvc]
    rcases deriveServiceLine_cases items with h | ⟨it, hit, h⟩
    · rw [h]; decide
    · rw [h]
      have hne := hnm it hit
      simp [List.contains, hne]
  have hsl' : deriveServiceLine items ∉ cfg.professional_component_services := by
    intro hmem
    have hc : cfg.professional_component_services.contains
        (deriveServiceLine items) = true := List.elem_iff.mpr hmem
    rw [hsl] at hc
    exact absurd hc (by decide)
  constructor
  · intro hphys
    have hany : items.any (fun it => it.physicianRef.isSome) = false := by
      rw [List.any_eq_false]
      intro it hit
      simp [hphys it hit]
    unfold createWorkItems shouldCreateProfessional
    simp [hfac, hprof, hany, hsl, hsl']
  · intro hex
    have hany : items.any (fun it => it.physicianRef.isSome) = true := by
      rw [List.any_eq_true]
      obtain ⟨it, hit, hp⟩ := hex
      exact ⟨it, hit, hp⟩
    unfold createWorkItems shouldCreateProfessional
    simp [hfac, hprof, hany, hsl, hsl']

/-- Witness for claim C6: one order line item in a non-matching service
    line with a performing-physician reference yields both the facility
    and the professional item. -/
theorem professional_routing_witness :
    (cfgSample.always_create_facility = true ∧
      cfgSample.always_create_professional = false ∧
      cfgSample.professional_component_services = ["radiology"] ∧
      (∀ it ∈ [itemPhys], it.serviceLine ≠ "radiology")) ∧
    (((∀ it ∈ [itemPhys], it.physicianRef = none) →
      createWorkItems cfgSample encV100 [itemPhys] 1 =
        [⟨encV100.visitId ++ ":facility", encV100.visitId, encV100.tenant,
          .facility, 1, deriveServiceLine [itemPhys]⟩]) ∧
     ((∃ it ∈ [itemPhys], it.physicianRef.isSome) →
      ⟨encV100.visitId ++ ":facility", encV100.visitId, encV100.tenant, .facility,
          1, deriveServiceLine [itemPhys]⟩ ∈
        createWorkItems cfgSample encV100 [itemPhys] 1 ∧
      ⟨encV100.visitId ++ ":professional", encV100.visitId, encV100.tenant,
          .professional, 1, deriveServiceLine [itemPhys]⟩ ∈
        createWorkItems cfgSample encV100 [itemPhys] 1)) :=
  ⟨⟨by decide, by decide, by decide, by decide⟩,
    professional_routing cfgSample encV100 [itemPhys] 1
      (by decide) (by decide) (by decide) (by decide)⟩

/-! ## Correlator equations and readiness lemmas -/

/-- A successful encounter lookup returns a record with the queried
    key. -/
theorem findEnc_key (core : Core) (t v : String) (e : Encounter)
    (h : findEnc core t v = some e) : e.tenant = t ∧ e.visitId = v := by
  unfold findEnc at h
  have := List.find?_some h
  simpa using this

/-- Appending a fresh encounter record makes its lookup succeed. -/
theorem findEnc_append_self (core : Core) (e : Encounter)
    (hno : findEnc core e.tenant e.visitId = none) :
    findEnc { core with encounters := core.encounters ++ [e] } e.tenant e.visitId =
      some e := by
  unfold findEnc at hno ⊢
  dsimp only
  rw [List.find?_append, hno, Option.none_or]
  simp [List.find?_cons]

/-- What `triggerReadiness` does to each component of the store. -/
theorem triggerReadiness_components (cfg : TenantConfig) (core : Core)
    (enc : Encounter) :
    (triggerReadiness cfg core enc).readyLog =
      core.readyLog ++ [(enc.tenant, enc.visitId)] ∧
    (triggerReadiness cfg core enc).snapshots =
      core.snapshots ++
        [⟨enc.visitId, enc.tenant, snapCount core enc.tenant enc.visitId + 1,
          ({ enc with status := .readyToCode },
            encItems core enc.tenant enc.visitId)⟩] ∧
    (triggerReadiness cfg core enc).workItems =
      core.workItems ++
        createWorkItems cfg { enc with status := .readyToCode }
          (encItems core enc.tenant enc.visitId)
          (snapCount core enc.tenant enc.visitId + 1) ∧
    (triggerReadiness cfg core enc).lineItems = core.lineItems ∧
    (triggerReadiness cfg core enc).encounters =
      (setEncounter core { enc with status := .readyToCode }).encounters :=
  ⟨rfl, rfl, rfl, rfl, rfl⟩

/-- `setEncounter` touches only the encounter table. -/
theorem setEncounter_components (core : Core) (e : Encounter) :
    (setEncounter core e).snapshots = core.snapshots ∧
    (setEncounter core e).workItems = core.workItems ∧
    (setEncounter core e).readyLog = core.readyLog ∧
    (setEncounter core e).lineItems = core.lineItems := ⟨rfl, rfl, rfl, rfl⟩

/-- One readiness transition appends one entry to the transition log. -/
theorem readyCount_trigger (cfg : TenantConfig) (core : Core) (enc : Encounter) :
    readyCount (triggerReadiness cfg core enc) enc.tenant enc.visitId =
      readyCount core enc.tenant enc.visitId + 1 := by
  unfold readyCount
  rw [(triggerReadiness_components cfg core enc).1]
  simp

/-- One readiness transition appends one snapshot of the encounter. -/
theorem snapCount_trigger (cfg : TenantConfig) (core : Core) (enc : Encounter) :
    snapCount (triggerReadiness cfg core enc) enc.tenant enc.visitId =
      snapCount core enc.tenant enc.visitId + 1 := by
  unfold snapCount
  rw [(triggerReadiness_components cfg core enc).2.1]
  rw [List.countP_append]
  simp

/-- After a readiness transition the encounter reads `ready_to_code`. -/
theorem encStatusOf_trigger (cfg : TenantConfig) (core : Core) (enc e0 : Encounter)
    (hfind : findEnc core enc.tenant enc.visitId = some e0) :
    encStatusOf (triggerReadiness cfg core enc) enc.tenant enc.visitId =
      some .readyToCode := by
  unfold encStatusOf
  have hencs : findEnc (triggerReadiness cfg core enc) enc.tenant enc.visitId =
      findEnc (setEncounter core { enc with status := .readyToCode })
        enc.tenant enc.visitId := rfl
  have hk := findEnc_key core enc.tenant enc.visitId e0 hfind
  rw [hencs,
    findEnc_setEncounter_self core e0 { enc with status := .readyToCode }
      enc.tenant enc.visitId hfind hk.1.symm hk.2.symm]
  rfl

/-- Every work item created at readiness carries the encounter's key
    and the snapshot version of that act. -/
theorem createWorkItems_mem (cfg : TenantConfig) (enc : Encounter)
    (items : List LineItem) (ver : Nat) :
    ∀ w ∈ createWorkItems cfg enc items ver,
      w.tenant = enc.tenant ∧ w.visitId = enc.visitId ∧ w.snapshotVersion = ver := by
  intro w hw
  unfold createWorkItems at hw
  dsimp only at hw
  rcases List.mem_append.mp hw with h | h
  · by_cases hb : cfg.always_create_facility = true
    · rw [if_pos hb] at h
      simp at h
      subst h
      exact ⟨rfl, rfl, rfl⟩
    · rw [if_neg hb] at h
      simp at h
  · by_cases hb : shouldCreateProfessional cfg (deriveServiceLine items) items = true
    · rw [if_pos hb] at h
      simp at h
      subst h
      exact ⟨rfl, rfl, rfl⟩
    · rw [if_neg hb] at h
      simp at h

/-- The facility flag guarantees at least one created work item. -/
theorem createWorkItems_ne_nil (cfg : TenantConfig) (enc : Encounter)
    (items : List LineItem) (ver : Nat)
    (hfac : cfg.always_create_facility = true) :
    createWorkItems cfg enc items ver ≠ [] := by
  unfold createWorkItems
  dsimp only
  rw [if_pos hfac]
  simp

/-- The work items of an encounter after its readiness transition. -/
theorem workItemsFor_trigger (cfg : TenantConfig) (core : Core) (enc : Encounter) :
    workItemsFor (triggerReadiness cfg core enc) enc.tenant enc.visitId =
      workItemsFor core enc.tenant enc.visitId ++
        createWorkItems cfg { enc with status := .readyToCode }
          (encItems core enc.tenant enc.visitId)
          (snapCount core enc.tenant enc.visitId + 1) := by
  unfold workItemsFor
  rw [(triggerReadiness_components cfg core enc).2.2.1]
  rw [List.filter_append]
  congr 1
  rw [List.filter_eq_self]
  intro w hw
  have hk := createWorkItems_mem cfg { enc with status := .readyToCode }
    (encItems core enc.tenant enc.visitId)
    (snapCount core enc.tenant enc.visitId + 1) w hw
  simp [hk.1, hk.2.1]

/-- The correlator on a discharge message for an unknown visit: create
    the encounter from the discharge and run readiness at once. -/
theorem correlate_discharge_create (cfg : TenantConfig) (core : Core) (m : Msg)
    (hm : m.mclass = .discharge)
    (hno : findEnc core m.tenant m.visitId = none) :
    correlate cfg core m =
      triggerReadiness cfg
        { core with encounters := core.encounters ++ [newEncounter m] }
        (newEncounter m) := by
  unfold correlate
  rw [hno]
  dsimp only
  rw [hm]
  simp [createsLineItem]

/-- The correlator on a discharge message for an open encounter: set
    the disposition and run readiness at once. -/
theorem correlate_discharge_open (cfg : TenantConfig) (core : Core) (m : Msg)
    (e : Encounter) (hm : m.mclass = .discharge)
    (hfind : findEnc core m.tenant m.visitId = some e)
    (hst : e.status = .opened) :
    correlate cfg core m =
      triggerReadiness cfg core
        { e with status := .discharged, dischargeDisposition := m.disposition } := by
  unfold correlate
  rw [hfind]
  dsimp only
  unfold applyToExisting
  rw [hm]
  simp [createsLineItem, hst]

/-- The correlator on a discharge message for an encounter not open:
    record the disposition only — the readiness transition never fires
    twice. -/
theorem correlate_discharge_nofire (cfg : TenantConfig) (core : Core) (m : Msg)
    (e : Encounter) (hm : m.mclass = .discharge)
    (hfind : findEnc core m.tenant m.visitId = some e)
    (hst : e.status ≠ .opened) :
    correlate cfg core m =
      setEncounter core { e with dischargeDisposition := m.disposition } := by
  unfold correlate
  rw [hfind]
  dsimp only
  unfold applyToExisting
  rw [hm]
  simp [createsLineItem, hst]

/-- An encounter already `coded` regenerates nothing on the operator's
    mark-ready action: it feeds the refresh path instead. -/
theorem markReady_coded (cfg : TenantConfig) (core : Core) (t v : String)
    (hst : encStatusOf core t v = some .coded) :
    markReady cfg core t v = core := by
  unfold markReady
  unfold encStatusOf at hst
  cases hfind : findEnc core t v with
  | none => rfl
  | some e =>
      rw [hfind] at hst
      simp only [Option.map_some'] at hst
      have he : e.status = .coded := by
        injection hst
      dsimp only
      rw [he]
      simp

/-- Once an encounter reads `ready_to_code`, any further discharge
    messages for it — duplicates or fresh retransmissions — leave the
    transition log, snapshots, work items and status untouched. -/
theorem discharge_no_refire (cfg : TenantConfig) (msgs : List Msg) (s : PState)
    (t v : String)
    (hmsgs : ∀ m ∈ msgs, m.mclass = .discharge ∧ m.tenant = t ∧ m.visitId = v)
    (hst : encStatusOf s.core t v = some .readyToCode) :
    (processBatch cfg s (msgs.map InMsg.ok)).core.readyLog = s.core.readyLog ∧
    (processBatch cfg s (msgs.map InMsg.ok)).core.snapshots = s.core.snapshots ∧
    (processBatch cfg s (msgs.map InMsg.ok)).core.workItems = s.core.workItems ∧
    encStatusOf (processBatch cfg s (msgs.map InMsg.ok)).core t v =
      some .readyToCode := by
  induction msgs generalizing s with
  | nil => exact ⟨rfl, rfl, rfl, hst⟩
  | cons m rest ih =>
      obtain ⟨hm, hmt, hmv⟩ := hmsgs m (List.mem_cons_self m rest)
      subst hmt
      subst hmv
      have hrest : ∀ m' ∈ rest,
          m'.mclass = .discharge ∧ m'.tenant = m.tenant ∧ m'.visitId = m.visitId :=
        fun m' hm' => hmsgs m' (List.mem_cons_of_mem m hm')
      obtain ⟨e, hfind, hes⟩ : ∃ e, findEnc s.core m.tenant m.visitId = some e ∧
          e.status = .readyToCode := by
        unfold encStatusOf at hst
        cases hf : findEnc s.core m.tenant m.visitId with
        | none => rw [hf] at hst; simp at hst
        | some e =>
            rw [hf] at hst
            simp only [Option.map_some'] at hst
            exact ⟨e, rfl, by injection hst⟩
      have hstep : (processMsg cfg s (.ok m)).core.readyLog = s.core.readyLog ∧
          (processMsg cfg s (.ok m)).core.snapshots = s.core.snapshots ∧
          (processMsg cfg s (.ok m)).core.workItems = s.core.workItems ∧
          encStatusOf (processMsg cfg s (.ok m)).core m.tenant m.visitId =
            some .readyToCode := by
        by_cases hdup : ledgerHas s m.controlId m.tenant = true
        · rw [processMsg_dup_eq cfg s m hdup]
          exact ⟨rfl, rfl, rfl, hst⟩
        · have hfr : ledgerHas s m.controlId m.tenant = false := by
            simpa using hdup
          rw [processMsg_fresh_eq cfg s m hfr]
          dsimp only
          rw [correlate_discharge_nofire cfg s.core m e hm hfind (by rw [hes]; decide)]
          have hk := findEnc_key s.core m.tenant m.visitId e hfind
          refine ⟨rfl, rfl, rfl, ?_⟩
          unfold encStatusOf
          rw [findEnc_setEncounter_self s.core e
            { e with dischargeDisposition := m.disposition }
            m.tenant m.visitId hfind rfl rfl]
          simp [hes]
      show (processBatch cfg (processMsg cfg s (.ok m)) (rest.map InMsg.ok)).core.readyLog = _ ∧ _
      obtain ⟨h1, h2, h3, h4⟩ := ih (processMsg cfg s (.ok m)) hrest hstep.2.2.2
      exact ⟨h1.trans hstep.1, h2.trans hstep.2.1, h3.trans hstep.2.2.1, h4⟩

/-- Claim C2: for every encounter, across any number of discharge-class
    messages received (including duplicate discharges), at most one
    transition into `ready_to_code` occurs and exactly one initial
    snapshot together with its work-queue item(s) is created — here,
    starting from an absent or `open` encounter with no prior
    transition, the transition count and snapshot count both end at
    exactly one and every work item of the encounter references
    snapshot version 1; an encounter that is already `coded` does not
    regenerate packets on a later readiness re-entry. -/
theorem readiness_fires_once (cfg : TenantConfig) (s : PState) (t v : String)
    (m : Msg) (rest : List Msg)
    (hm : m.mclass = .discharge) (hmt : m.tenant = t) (hmv : m.visitId = v)
    (hrest : ∀ m' ∈ rest, m'.mclass = .discharge ∧ m'.tenant = t ∧ m'.visitId = v)
    (hfresh : ledgerHas s m.controlId t = false)
    (hstart : encStatusOf s.core t v = none ∨ encStatusOf s.core t v = some .opened)
    (hr0 : readyCount s.core t v = 0)
    (hs0 : snapCount s.core t v = 0)
    (hw0 : workItemsFor s.core t v = []) :
    readyCount (processBatch cfg s ((m :: rest).map InMsg.ok)).core t v = 1 ∧
    snapCount (processBatch cfg s ((m :: rest).map InMsg.ok)).core t v = 1 ∧
    (∀ w ∈ workItemsFor (processBatch cfg s ((m :: rest).map InMsg.ok)).core t v,
      w.snapshotVersion = 1) ∧
    encStatusOf (processBatch cfg s ((m :: rest).map InMsg.ok)).core t v =
      some .readyToCode ∧
    (∀ core' t' v', encStatusOf core' t' v' = some .coded →
      markReady cfg core' t' v' = core') := by
  subst hmt
  subst hmv
  obtain ⟨X, encX, e0, hcorr, hsnapX, hreadyX, hwX, hfindX, hkt, hkv⟩ :
      ∃ X encX e0,
        correlate cfg s.core m = triggerReadiness cfg X encX ∧
        snapCount X m.tenant m.visitId = 0 ∧
        readyCount X m.tenant m.visitId = 0 ∧
        workItemsFor X m.tenant m.visitId = [] ∧
        findEnc X encX.tenant encX.visitId = some e0 ∧
        encX.tenant = m.tenant ∧ encX.visitId = m.visitId := by
    rcases hstart with hnone | hopen
    · have hno : findEnc s.core m.tenant m.visitId = none := by
        unfold encStatusOf at hnone
        cases hf : findEnc s.core m.tenant m.visitId with
        | none => rfl
        | some e => rw [hf] at hnone; simp at hnone
      exact ⟨{ s.core with encounters := s.core.encounters ++ [newEncounter m] },
        newEncounter m, newEncounter m,
        correlate_discharge_create cfg s.core m hm hno, hs0, hr0, hw0,
        findEnc_append_self s.core (newEncounter m) hno, rfl, rfl⟩
    · obtain ⟨e, hfind, hes⟩ : ∃ e, findEnc s.core m.tenant m.visitId = some e ∧
          e.status = .opened := by
        unfold encStatusOf at hopen
        cases hf : findEnc s.core m.tenant m.visitId with
        | none => rw [hf] at hopen; simp at hopen
        | some e =>
            rw [hf] at hopen
            simp only [Option.map_some'] at hopen
            exact ⟨e, rfl, by injection hopen⟩
      have hk := findEnc_key s.core m.tenant m.visitId e hfind
      exact ⟨s.core,
        { e with status := .discharged, dischargeDisposition := m.disposition }, e,
        correlate_discharge_open cfg s.core m e hm hfind hes, hs0, hr0, hw0,
        by
          show findEnc s.core e.tenant e.visitId = some e
          rw [hk.1, hk.2]
          exact hfind,
        by exact hk.1, by exact hk.2⟩
  have hready1 : readyCount (correlate cfg s.core m) m.tenant m.visitId = 1 := by
    rw [hcorr, ← hkt, ← hkv, readyCount_trigger, hkt, hkv, hreadyX]
  have hsnap1 : snapCount (correlate cfg s.core m) m.tenant m.visitId = 1 := by
    rw [hcorr, ← hkt, ← hkv, snapCount_trigger, hkt, hkv, hsnapX]
  have hstat1 : encStatusOf (correlate cfg s.core m) m.tenant m.visitId =
      some .readyToCode := by
    rw [hcorr, ← hkt, ← hkv]
    exact encStatusOf_trigger cfg X encX e0 hfindX
  have hwi1 : ∀ w ∈ workItemsFor (correlate cfg s.core m) m.tenant m.visitId,
      w.snapshotVersion = 1 := by
    rw [hcorr, ← hkt, ← hkv, workItemsFor_trigger]
    intro w hw
    rcases List.mem_append.mp hw with h | h
    · rw [hkt, hkv, hwX] at h
      simp at h
    · have hmem := createWorkItems_mem cfg { encX with status := .readyToCode }
        (encItems X encX.tenant encX.visitId)
        (snapCount X encX.tenant encX.visitId + 1) w h
      rw [hmem.2.2, hkt, hkv, hsnapX]
  have hs1core : (processMsg cfg s (.ok m)).core = correlate cfg s.core m := by
    rw [processMsg_fresh_eq cfg s m hfresh]
  have hfold : processBatch cfg s ((m :: rest).map InMsg.ok) =
      processBatch cfg (processMsg cfg s (.ok m)) (rest.map InMsg.ok) := rfl
  obtain ⟨hrl, hsn, hwi, hstat⟩ :=
    discharge_no_refire cfg rest (processMsg cfg s (.ok m)) m.tenant m.visitId
      hrest (by rw [hs1core]; exact hstat1)
  refine ⟨?_, ?_, ?_, by rw [hfold]; exact hstat,
    fun core' t' v' h => markReady_coded cfg core' t' v' h⟩
  · rw [hfold]
    unfold readyCount
    rw [hrl, hs1core]
    exact hready1
  · rw [hfold]
    unfold snapCount
    rw [hsn, hs1core]
    exact hsnap1
  · rw [hfold]
    unfold workItemsFor
    rw [hwi, hs1core]
    exact hwi1

/-- Witness for claim C2: a discharge followed by its duplicate
    retransmission fires readiness exactly once on an initially empty
    store. -/
theorem readiness_fires_once_witness :
    (msgDischarge.mclass = .discharge ∧ msgDischarge.tenant = "t1" ∧
      msgDischarge.visitId = "V100" ∧
      (∀ m' ∈ [msgDischargeDup], m'.mclass = .discharge ∧ m'.tenant = "t1" ∧
        m'.visitId = "V100") ∧
      ledgerHas emptyState msgDischarge.controlId "t1" = false ∧
      (encStatusOf emptyState.core "t1" "V100" = none ∨
        encStatusOf emptyState.core "t1" "V100" = some .opened) ∧
      readyCount emptyState.core "t1" "V100" = 0 ∧
      snapCount emptyState.core "t1" "V100" = 0 ∧
      workItemsFor emptyState.core "t1" "V100" = []) ∧
    (readyCount (processBatch cfgSample emptyState
        (([msgDischarge, msgDischargeDup]).map InMsg.ok)).core "t1" "V100" = 1 ∧
     snapCount (processBatch cfgSample emptyState
        (([msgDischarge, msgDischargeDup]).map InMsg.ok)).core "t1" "V100" = 1 ∧
     (∀ w ∈ workItemsFor (processBatch cfgSample emptyState
        (([msgDischarge, msgDischargeDup]).map InMsg.ok)).core "t1" "V100",
       w.snapshotVersion = 1) ∧
     encStatusOf (processBatch cfgSample emptyState
        (([msgDischarge, msgDischargeDup]).map InMsg.ok)).core "t1" "V100" =
       some .readyToCode ∧
     (∀ core' t' v', encStatusOf core' t' v' = some .coded →
       markReady cfgSample core' t' v' = core')) :=
  ⟨⟨rfl, rfl, rfl, by decide, by decide, Or.inl (by decide), by decide, by decide,
      by decide⟩,
    readiness_fires_once cfgSample emptyState "t1" "V100" msgDischarge
      [msgDischargeDup] rfl rfl rfl (by decide) (by decide) (Or.inl (by decide))
      (by decide) (by decide) (by decide)⟩

/-- Claim C3: a discharge-class message whose visit identifier matches
    no existing encounter creates a new encounter whose creation status
    is `discharged` with `needs_review = true` and a recorded reason,
    and packet generation still occurs for it: the processed state
    holds the created encounter (advanced by the immediate readiness
    transition), one new snapshot, and at least one work-queue item. -/
theorem out_of_order_discharge (cfg : TenantConfig) (s : PState) (m : Msg)
    (hm : m.mclass = .discharge)
    (hno : findEnc s.core m.tenant m.visitId = none)
    (hfresh : ledgerHas s m.controlId m.tenant = false)
    (hfac : cfg.always_create_facility = true) :
    (newEncounter m).status = .discharged ∧
    (newEncounter m).needsReview = true ∧
    (newEncounter m).reviewReason =
      some "created from discharge; admission not received" ∧
    findEnc (processMsg cfg s (.ok m)).core m.tenant m.visitId =
      some { newEncounter m with status := .readyToCode } ∧
    snapCount (processMsg cfg s (.ok m)).core m.tenant m.visitId =
      snapCount s.core m.tenant m.visitId + 1 ∧
    workItemsFor (processMsg cfg s (.ok m)).core m.tenant m.visitId ≠ [] := by
  have hs1core : (processMsg cfg s (.ok m)).core = correlate cfg s.core m := by
    rw [processMsg_fresh_eq cfg s m hfresh]
  have hcorr := correlate_discharge_create cfg s.core m hm hno
  have hfindB : findEnc
      { s.core with encounters := s.core.encounters ++ [newEncounter m] }
      m.tenant m.visitId = some (newEncounter m) := by
    exact findEnc_append_self s.core (newEncounter m) (by exact hno)
  refine ⟨?_, ?_, ?_, ?_, ?_, ?_⟩
  · simp [newEncounter, hm]
  · simp [newEncounter, hm]
  · simp [newEncounter, hm]
  · rw [hs1core, hcorr]
    have htr : findEnc (triggerReadiness cfg
        { s.core with encounters := s.core.encounters ++ [newEncounter m] }
        (newEncounter m)) m.tenant m.visitId =
        findEnc (setEncounter
          { s.core with encounters := s.core.encounters ++ [newEncounter m] }
          { newEncounter m with status := .readyToCode }) m.tenant m.visitId := rfl
    rw [htr]
    exact findEnc_setEncounter_self _ (newEncounter m)
      { newEncounter m with status := .readyToCode } m.tenant m.visitId hfindB
      rfl rfl
  · rw [hs1core, hcorr]
    have h1 : snapCount (triggerReadiness cfg
        { s.core with encounters := s.core.encounters ++ [newEncounter m] }
        (newEncounter m)) m.tenant m.visitId =
        snapCount { s.core with encounters := s.core.encounters ++ [newEncounter m] }
          m.tenant m.visitId + 1 := by
      exact snapCount_trigger cfg _ (newEncounter m)
    rw [h1]
    rfl
  · rw [hs1core, hcorr]
    have h2 : workItemsFor (triggerReadiness cfg
        { s.core with encounters := s.core.encounters ++ [newEncounter m] }
        (newEncounter m)) m.tenant m.visitId =
        workItemsFor { s.core with encounters := s.core.encounters ++ [newEncounter m] }
          m.tenant m.visitId ++
          createWorkItems cfg { newEncounter m with status := .readyToCode }
            (encItems { s.core with
                encounters := s.core.encounters ++ [newEncounter m] }
              m.tenant m.visitId)
            (snapCount { s.core with
                encounters := s.core.encounters ++ [newEncounter m] }
              m.tenant m.visitId + 1) := by
      exact workItemsFor_trigger cfg _ (newEncounter m)
    rw [h2]
    intro hemp
    have hnil := List.append_eq_nil.mp hemp
    exact createWorkItems_ne_nil cfg _ _ _ hfac hnil.2

/-- Witness for claim C3: the sample discharge arriving for an unknown
    visit on the empty store. -/
theorem out_of_order_discharge_witness :
    (msgDischarge.mclass = .discharge ∧
      findEnc emptyState.core msgDischarge.tenant msgDischarge.visitId = none ∧
      ledgerHas emptyState msgDischarge.controlId msgDischarge.tenant = false ∧
      cfgSample.always_create_facility = true) ∧
    ((newEncounter msgDischarge).status = .discharged ∧
     (newEncounter msgDischarge).needsReview = true ∧
     (newEncounter msgDischarge).reviewReason =
       some "created from discharge; admission not received" ∧
     findEnc (processMsg cfgSample emptyState (.ok msgDischarge)).core
        msgDischarge.tenant msgDischarge.visitId =
       some { newEncounter msgDischarge with status := .readyToCode } ∧
     snapCount (processMsg cfgSample emptyState (.ok msgDischarge)).core
        msgDischarge.tenant msgDischarge.visitId =
       snapCount emptyState.core msgDischarge.tenant msgDischarge.visitId + 1 ∧
     workItemsFor (processMsg cfgSample emptyState (.ok msgDischarge)).core
        msgDischarge.tenant msgDischarge.visitId ≠ []) :=
  ⟨⟨rfl, by decide, by decide, by decide⟩,
    out_of_order_discharge cfgSample emptyState msgDischarge rfl (by decide)
      (by decide) (by decide)⟩

end Medcode
